import Mathlib

/-
Shallow embedding of the LLM Café elimination engines
(src/cafe_elimination_v3.py and src/cafe_elimination_v5_standalone.py).

Python integers are modelled as ℤ; the float interest/rate factors
(0.05, interest_rate) are modelled as exact rationals ℚ, and Python's
`int(...)` conversion as truncation toward zero.  External collaborators
(the LLM APIs, the judge, the RNG behind `random.shuffle`) are modelled
as explicit parameters.  Display-only return values (printed message
lists, the per-participant interest dict) are kept where they are part
of a method's return value and dropped where the engine only prints them.
-/

namespace CafeElim

/-- Python `int(q)`: truncation toward zero of a rational (numerator divided
by the positive denominator, rounding toward zero). -/
def truncInt (q : ℚ) : ℤ :=
  q.num.tdiv q.den

/-- `TokenLoan.__init__` from cafe_elimination_v3.py. -/
structure TokenLoan where
  lender_name : String
  borrower_name : String
  principal : ℤ
  interest_rate : ℚ
  duration : ℤ
  rounds_remaining : ℤ
  issued_round : ℤ
deriving DecidableEq, Repr

/-- `TokenLoan.calculate_payment`: `int(principal * (1 + interest_rate))`. -/
def TokenLoan.calculate_payment (l : TokenLoan) : ℤ :=
  truncInt ((l.principal : ℚ) * (1 + l.interest_rate))

/-- `Participant` state from cafe_elimination_v3.py (the api client object
is not part of the logical state and is omitted). -/
structure Participant where
  name : String
  model : String
  level : ℤ
  token_bank : ℤ
  loans_owed : List TokenLoan
  loans_issued : List TokenLoan
  eliminated : Bool
  elimination_round : Option ℤ
  total_earned : ℤ
  total_spent : ℤ
  total_interest_earned : ℤ
  donations_given : ℤ
  donations_received : ℤ
deriving DecidableEq, Repr

/-- `Participant.__init__`: level 0, bank 1000, empty loan lists, alive. -/
def Participant.init (name model : String) : Participant :=
  ⟨name, model, 0, 1000, [], [], false, none, 1000, 0, 0, 0, 0⟩

/-- `Participant.apply_interest`: 5% interest, `int(token_bank * 0.05)`
(the float constant 0.05 is modelled as the exact rational 5/100). -/
def Participant.apply_interest (p : Participant) : Participant × ℤ :=
  if 0 < p.token_bank then
    let interest := truncInt ((p.token_bank : ℚ) * (5 / 100))
    ({p with token_bank := p.token_bank + interest,
             total_interest_earned := p.total_interest_earned + interest},
     interest)
  else (p, 0)

/-- `Participant.earn_tokens`: unconditional credit, returns a message. -/
def Participant.earn_tokens (p : Participant) (amount : ℤ) (reason : String) :
    Participant × String :=
  ({p with token_bank := p.token_bank + amount,
           total_earned := p.total_earned + amount},
   p.name ++ " earned " ++ toString amount ++ " tokens: " ++ reason)

/-- `Participant.spend_tokens`: debit guarded by an affordability check. -/
def Participant.spend_tokens (p : Participant) (amount : ℤ) (reason : String) :
    Participant × Bool :=
  if p.token_bank ≥ amount then
    ({p with token_bank := p.token_bank - amount,
             total_spent := p.total_spent + amount}, true)
  else (p, false)

/-- `Participant.boost_self`: spend 1000 tokens to gain +2 levels (clamped at 3). -/
def Participant.boost_self (p : Participant) : Participant × Bool :=
  if p.eliminated then (p, false)
  else
    let s := p.spend_tokens 1000 "Self-boost"
    if s.2 then ({s.1 with level := min (s.1.level + 2) 3}, true)
    else (s.1, false)

/-- `Participant.donate_to`: gift tokens to another participant. -/
def Participant.donate_to (p target : Participant) (amount : ℤ) :
    Participant × Participant × Bool :=
  let s := p.spend_tokens amount ("Donation to " ++ target.name)
  if s.2 then
    let t := (target.earn_tokens amount ("Gift from " ++ p.name)).1
    ({s.1 with donations_given := s.1.donations_given + amount},
     {t with donations_received := t.donations_received + amount},
     true)
  else (p, target, false)

/-- `Participant.offer_loan`: lend tokens; only the lender's affordability is
checked, the principal moves immediately and the loan is appended to both
parties' lists. -/
def Participant.offer_loan (lender borrower : Participant) (amount : ℤ)
    (interest_rate : ℚ) (duration : ℤ) :
    Participant × Participant × Option TokenLoan :=
  if lender.token_bank ≥ amount then
    let loan : TokenLoan :=
      ⟨lender.name, borrower.name, amount, interest_rate, duration, duration, 0⟩
    ({lender with token_bank := lender.token_bank - amount,
                  loans_issued := lender.loans_issued ++ [loan]},
     {borrower with token_bank := borrower.token_bank + amount,
                    loans_owed := borrower.loans_owed ++ [loan]},
     some loan)
  else (lender, borrower, none)

/-- Accumulator for the loop body of `Participant.process_loan_payments`:
the borrower's running bank, the loans that stay owed, and the messages. -/
structure LoanAcc where
  bank : ℤ
  kept : List TokenLoan
  msgs : List String
deriving Repr

/-- One iteration of the loop in `Participant.process_loan_payments`:
decrement `rounds_remaining`; at exactly 0 the payment is due — debited if
affordable (repayment), otherwise a default — and the loan is dropped;
otherwise the decremented loan stays owed. -/
def loanPaymentStep (acc : LoanAcc) (loan : TokenLoan) : LoanAcc :=
  let l := {loan with rounds_remaining := loan.rounds_remaining - 1}
  if l.rounds_remaining = 0 then
    let payment := l.calculate_payment
    if acc.bank ≥ payment then
      {acc with bank := acc.bank - payment,
                msgs := acc.msgs ++
                  ["repaid " ++ toString payment ++ " tokens to " ++ l.lender_name]}
    else
      {acc with msgs := acc.msgs ++ ["DEFAULTED on loan to " ++ l.lender_name]}
  else
    {acc with kept := acc.kept ++ [l]}

/-- `Participant.process_loan_payments`: process the loans this participant
owes; matured loans are removed from `loans_owed` (only). -/
def Participant.process_loan_payments (p : Participant) :
    Participant × List String :=
  let acc := p.loans_owed.foldl loanPaymentStep ⟨p.token_bank, [], []⟩
  ({p with token_bank := acc.bank, loans_owed := acc.kept}, acc.msgs)

/-- Per-participant step of `EliminationEngineV3.apply_interest_to_all`
(interest only for non-eliminated participants). -/
def interestStep (p : Participant) : Participant :=
  if p.eliminated then p else p.apply_interest.1

/-- Per-participant step of `EliminationEngineV3.process_all_loans`
(loans processed only for non-eliminated participants). -/
def loanStep (p : Participant) : Participant :=
  if p.eliminated then p else p.process_loan_payments.1

/-- `EliminationEngineV3.apply_interest_to_all` (the engine only prints the
returned per-participant interest amounts, which we drop). -/
def apply_interest_to_all (ps : List Participant) : List Participant :=
  ps.map interestStep

/-- `EliminationEngineV3.process_all_loans` (the engine only prints the
returned message list, which we drop). -/
def process_all_loans (ps : List Participant) : List Participant :=
  ps.map loanStep

/-- `EliminationEngineV3.check_group_survival_bonus`: if every participant
is alive, credit every participant 300 tokens and report `true`. -/
def check_group_survival_bonus (ps : List Participant) :
    List Participant × Bool :=
  if ps.all (fun p => !p.eliminated) then
    (ps.map (fun p => (p.earn_tokens 300 "Group survival bonus").1), true)
  else (ps, false)

/-- Update the participant stored under `name` (the engine's participant
dict keyed by name, names being distinct). -/
def updateParticipant (ps : List Participant) (name : String)
    (f : Participant → Participant) : List Participant :=
  ps.map (fun p => if p.name = name then f p else p)

/-- The settle block of `EliminationEngineV3.run_round`: promote the best
(level +1 clamped at 3, earn 500), then demote the worst (level −1 clamped
at −6). -/
def settleStep (ps : List Participant) (best worst : String) :
    List Participant :=
  updateParticipant
    (updateParticipant ps best
      (fun p => (Participant.earn_tokens {p with level := min (p.level + 1) 3}
                  500 "Best response").1))
    worst (fun p => {p with level := max (p.level - 1) (-6)})

/-- Per-participant step of the survival-bonus loop in `run_round`. -/
def stipendStep (p : Participant) : Participant :=
  if p.eliminated then p else (p.earn_tokens 100 "Survival bonus").1

/-- Per-participant step of `EliminationEngineV3.check_eliminations`. -/
def elimStep (r : ℤ) (p : Participant) : Participant :=
  if p.eliminated = false ∧ p.level ≤ -6 then
    {p with eliminated := true, elimination_round := some r}
  else p

/-- `EliminationEngineV3.check_eliminations` at round number `r`. -/
def check_eliminations (ps : List Participant) (r : ℤ) : List Participant :=
  ps.map (elimStep r)

/-- `EliminationEngineV3` state (participants in dict insertion order). -/
structure EngineV3 where
  participants : List Participant
  current_round : ℤ
deriving Repr

/-- `EliminationEngineV3.run_round`.  The outcome of the judging step
(external LLM calls plus the engine's own fallback) is passed in as
`judged`: `some (best, worst)` when fewer than two responses or a falsy
judge result did not suppress the settle block, `none` otherwise. -/
def EngineV3.run_round (e : EngineV3) (judged : Option (String × String)) :
    EngineV3 :=
  let r := e.current_round + 1
  let ps1 := apply_interest_to_all e.participants
  let ps2 := process_all_loans ps1
  let ps3 := match judged with
    | some bw => settleStep ps2 bw.1 bw.2
    | none => ps2
  let ps4 := ps3.map stipendStep
  let ps5 := (check_group_survival_bonus ps4).1
  let ps6 := check_eliminations ps5 r
  ⟨ps6, r⟩

/-- `EliminationEngineV3.judge_responses`, with the external judge-LLM
outcome abstracted: `parsed = some (best, worst)` when the judge call
succeeded and parsed, `none` on any exception — in which case the engine
falls back to `names[0], names[-1]` of the eligible list.  `valid` is the
list of non-eliminated respondent names in stable enumeration order. -/
def judge_responses (valid : List String)
    (parsed : Option (String × String)) : Option String × Option String :=
  if valid.length < 2 then
    (valid.head?, none)
  else
    match parsed with
    | some bw => (some bw.1, some bw.2)
    | none => (valid.head?, valid.getLast?)

/-- `AI.__init__` state from cafe_elimination_v5_standalone.py (api client,
role flags and the history lists play no part in the claims' state and the
traitor booleans are omitted along with them where unused; the fields the
round logic reads and writes are kept). -/
structure AIv5 where
  name : String
  model : String
  token_bank : ℤ
  level : ℤ
  alive : Bool
  eliminated_round : Option ℤ
  reputation_score : ℤ
  sabotage_tokens : ℤ
deriving DecidableEq, Repr

/-- `AI.__init__`: bank 10000, level 0, alive, 3 sabotage tokens. -/
def AIv5.init (name model : String) : AIv5 :=
  ⟨name, model, 10000, 0, true, none, 0, 3⟩

/-- Update the AI stored under `name` in the engine's dict. -/
def updateAI (ais : List AIv5) (name : String) (f : AIv5 → AIv5) :
    List AIv5 :=
  ais.map (fun a => if a.name = name then f a else a)

/-- `EliminationEngineV5._apply_round_results`: best ranked gets level +1
and reputation +2, worst gets level −1 (no clamping in either direction);
if every AI is alive each bank is credited 3000; then any alive AI with
`token_bank ≤ 0` is eliminated, recording the round number. -/
def apply_round_results (ais : List AIv5) (round_num : ℤ)
    (rankings : List String) : List AIv5 :=
  let best := rankings.headD ""
  let worst := rankings.getLastD ""
  let a1 := updateAI ais best (fun a => {a with level := a.level + 1})
  let a2 := updateAI a1 worst (fun a => {a with level := a.level - 1})
  let a3 := updateAI a2 best
    (fun a => {a with reputation_score := a.reputation_score + 2})
  let a4 :=
    if a3.all (fun a => a.alive) then
      a3.map (fun a => {a with token_bank := a.token_bank + 3000})
    else a3
  a4.map (fun a =>
    if a.alive = true ∧ a.token_bank ≤ 0 then
      {a with alive := false, eliminated_round := some round_num}
    else a)

/-- `EliminationEngineV5.run_challenge_round` token-state effect: every
alive AI is debited the API cost of its response with no affordability
check (`ai.token_bank -= cost`), then `_apply_round_results` runs.  The
external API costs and the judge's ranking are passed in. -/
def run_challenge_round (ais : List AIv5) (round_num : ℤ)
    (costs : String → ℤ) (rankings : List String) : List AIv5 :=
  let ais1 := ais.map (fun a =>
    if a.alive then {a with token_bank := a.token_bank - costs a.name} else a)
  apply_round_results ais1 round_num rankings

/-- `EliminationEngineV5._judge_responses` outcome: if the judge output
parsed to a ranking it is returned; otherwise the fallback shuffles the
respondent names with the global RNG (`random.shuffle`), modelled as the
permutation `shuffle` drawn from the RNG. -/
def judge_responses_v5 (names : List String)
    (parsed : Option (List String))
    (shuffle : List String → List String) : List String :=
  match parsed with
  | some ranking => ranking
  | none => shuffle names

/-! ## General lemmas -/

/-- Truncation toward zero of a nonnegative rational is nonnegative. -/
lemma truncInt_nonneg {q : ℚ} (h : 0 ≤ q) : 0 ≤ truncInt q :=
  Int.tdiv_nonneg (Rat.num_nonneg.mpr h) (by positivity)

/-! ## Claims -/

/-- C3.  spend semantics: `spend_tokens` returns false and leaves
`token_bank` and `total_spent` unchanged whenever the amount exceeds the
balance; otherwise it returns true, decrements the balance by exactly the
amount and increments `total_spent` by exactly the amount. -/
theorem spend_tokens_spec (p : Participant) (amount : ℤ) (reason : String) :
    (p.token_bank < amount → p.spend_tokens amount reason = (p, false)) ∧
    (amount ≤ p.token_bank →
      p.spend_tokens amount reason =
        ({p with token_bank := p.token_bank - amount,
                 total_spent := p.total_spent + amount}, true)) := by
  constructor
  · intro h
    unfold Participant.spend_tokens
    rw [if_neg (by omega)]
  · intro h
    unfold Participant.spend_tokens
    rw [if_pos (by omega)]

/-- Witness for C3: the initial participant (balance 1000) cannot spend
2000 and is left unchanged. -/
theorem spend_tokens_spec_witness :
    (Participant.init "Grok" "grok-2-1212").token_bank < 2000 ∧
    (Participant.init "Grok" "grok-2-1212").spend_tokens 2000 "test" =
      (Participant.init "Grok" "grok-2-1212", false) :=
  ⟨by decide, (spend_tokens_spec _ 2000 "test").1 (by decide)⟩

/-- C2.  selfRescue atomicity: `boost_self` fails with no state change when
the participant is eliminated or cannot afford the fixed cost 1000; on
success it debits exactly 1000 and raises the level by exactly 2 clamped at
MAX_LEVEL 3, in one atomic update, and the resulting balance is
nonnegative. -/
theorem boost_self_spec (p : Participant) :
    (p.eliminated = true → p.boost_self = (p, false)) ∧
    (p.eliminated = false → p.token_bank < 1000 → p.boost_self = (p, false)) ∧
    (p.eliminated = false → 1000 ≤ p.token_bank →
      p.boost_self =
        ({p with token_bank := p.token_bank - 1000,
                 total_spent := p.total_spent + 1000,
                 level := min (p.level + 2) 3}, true) ∧
      0 ≤ p.token_bank - 1000) := by
  refine ⟨?_, ?_, ?_⟩
  · intro h
    unfold Participant.boost_self
    rw [if_pos h]
  · intro h1 h2
    have hg : ¬ (p.token_bank ≥ 1000) := by omega
    simp [Participant.boost_self, Participant.spend_tokens, h1, hg]
  · intro h1 h2
    refine ⟨?_, by omega⟩
    have hg : p.token_bank ≥ 1000 := by omega
    simp [Participant.boost_self, Participant.spend_tokens, h1, hg]

/-- Witness for C2: a fresh participant (alive, balance exactly 1000)
self-rescues: balance 0, totalSpent 1000, level min 2 3 = 2. -/
theorem boost_self_spec_witness :
    (Participant.init "Claude" "claude-sonnet-4-20250514").boost_self =
      ({Participant.init "Claude" "claude-sonnet-4-20250514" with
          token_bank := 0, total_spent := 1000, level := 2}, true) :=
  (((boost_self_spec (Participant.init "Claude" "claude-sonnet-4-20250514")).2.2
      rfl (by decide)).1).trans (by decide)

/-- C5 (amended).  `offer_loan` fails (no loan, no state change to either
party) exactly when the lender's balance is below the principal — the
borrower's eliminated status is not checked; on success it debits the
lender and credits the borrower by exactly the principal and appends the
created loan to both the lender's issued list and the borrower's owed
list. -/
theorem offer_loan_spec (lender borrower : Participant) (amount : ℤ)
    (rate : ℚ) (duration : ℤ) :
    (lender.token_bank < amount →
      Participant.offer_loan lender borrower amount rate duration =
        (lender, borrower, none)) ∧
    (amount ≤ lender.token_bank →
      Participant.offer_loan lender borrower amount rate duration =
        ({lender with token_bank := lender.token_bank - amount,
                      loans_issued := lender.loans_issued ++
                        [⟨lender.name, borrower.name, amount, rate, duration, duration, 0⟩]},
         {borrower with token_bank := borrower.token_bank + amount,
                        loans_owed := borrower.loans_owed ++
                          [⟨lender.name, borrower.name, amount, rate, duration, duration, 0⟩]},
         some ⟨lender.name, borrower.name, amount, rate, duration, duration, 0⟩)) := by
  constructor
  · intro h
    have hg : ¬ (lender.token_bank ≥ amount) := by omega
    simp [Participant.offer_loan, hg]
  · intro h
    have hg : lender.token_bank ≥ amount := by omega
    simp [Participant.offer_loan, hg]

/-- Counterexample for C5 as stated: lending to an eliminated borrower is
not rejected — with the borrower eliminated and the lender affording the
principal, `offer_loan` still succeeds and transfers the tokens. -/
theorem offer_loan_eliminated_borrower_cex :
    (Participant.offer_loan (Participant.init "L" "m")
        {Participant.init "B" "m" with eliminated := true} 500 0 2).2.2.isSome
      = true ∧
    (Participant.offer_loan (Participant.init "L" "m")
        {Participant.init "B" "m" with eliminated := true} 500 0 2).1.token_bank
      = 500 ∧
    (Participant.offer_loan (Participant.init "L" "m")
        {Participant.init "B" "m" with eliminated := true} 500 0 2).2.1.token_bank
      = 1500 := by
  decide

/-- Witness for C5's amended theorem at a concrete lender and borrower. -/
theorem offer_loan_spec_witness :
    Participant.offer_loan (Participant.init "L" "m") (Participant.init "B" "m")
        400 0 3 =
      ({Participant.init "L" "m" with token_bank := 600,
                                      loans_issued := [⟨"L", "B", 400, 0, 3, 3, 0⟩]},
       {Participant.init "B" "m" with token_bank := 1400,
                                      loans_owed := [⟨"L", "B", 400, 0, 3, 3, 0⟩]},
       some ⟨"L", "B", 400, 0, 3, 3, 0⟩) :=
  ((offer_loan_spec (Participant.init "L" "m") (Participant.init "B" "m")
      400 0 3).2 (by decide)).trans (by decide)

/-- C6 (amended, v3 part).  When the judge output cannot be parsed and at
least two eligible responses exist, the v3 engine's fallback picks best =
the first eligible name and worst = the last, a pure function of the
eligible list. -/
theorem judge_fallback_deterministic (valid : List String)
    (h : 2 ≤ valid.length) :
    judge_responses valid none = (valid.head?, valid.getLast?) := by
  unfold judge_responses
  rw [if_neg (by omega)]

/-- Witness for C6's amended theorem at the engine's four-name roster. -/
theorem judge_fallback_deterministic_witness :
    judge_responses ["Grok", "Claude", "DeepSeek", "ChatGPT"] none =
      (some "Grok", some "ChatGPT") :=
  (judge_fallback_deterministic _ (by decide)).trans (by decide)

/-- Counterexample for C6 as stated: the v5 fallback ranks by
`random.shuffle`; two RNG draws that both permute the same eligible list
give different rankings, and a draw can rank someone other than the first
eligible participant best — the fallback is not the claimed deterministic
first/last rule. -/
theorem judge_fallback_v5_random_cex :
    judge_responses_v5 ["A", "B"] none List.reverse ≠
      judge_responses_v5 ["A", "B"] none id ∧
    (List.reverse ["A", "B"]).Perm ["A", "B"] ∧
    (judge_responses_v5 ["A", "B"] none List.reverse).headD "" ≠ "A" := by
  refine ⟨by decide, by decide, by decide⟩

/-- C9.  Group bonus fires iff all alive: if every tracked participant is
alive the bonus fires (`true`) and every balance is credited exactly 300;
if any participant is eliminated, nothing changes and it reports
`false`. -/
theorem check_group_survival_bonus_spec (ps : List Participant) :
    ((∀ p ∈ ps, p.eliminated = false) →
      check_group_survival_bonus ps =
        (ps.map (fun p => (p.earn_tokens 300 "Group survival bonus").1), true) ∧
      (check_group_survival_bonus ps).1.map (fun p => p.token_bank) =
        ps.map (fun p => p.token_bank + 300)) ∧
    ((∃ p ∈ ps, p.eliminated = true) →
      check_group_survival_bonus ps = (ps, false)) := by
  constructor
  · intro h
    have hc : ps.all (fun p => !p.eliminated) = true := by
      rw [List.all_eq_true]
      intro p hp
      simp [h p hp]
    refine ⟨by simp [check_group_survival_bonus, hc], ?_⟩
    simp [check_group_survival_bonus, hc, List.map_map, Participant.earn_tokens]
  · rintro ⟨p, hp, he⟩
    have hc : ps.all (fun q => !q.eliminated) = false := by
      simp [List.all_eq_false]
      exact ⟨p, hp, he⟩
    simp [check_group_survival_bonus, hc]

/-- Witness for C9: with a single alive participant the bonus fires and
the balance goes from 1000 to 1300; with one eliminated participant in the
roster nothing changes and the check reports false. -/
theorem check_group_survival_bonus_spec_witness :
    (check_group_survival_bonus [Participant.init "A" "m"]).1.map
        (fun p => p.token_bank) = [1300] ∧
    check_group_survival_bonus
        [Participant.init "A" "m",
         {Participant.init "B" "m" with eliminated := true}] =
      ([Participant.init "A" "m",
        {Participant.init "B" "m" with eliminated := true}], false) :=
  ⟨((check_group_survival_bonus_spec [Participant.init "A" "m"]).1
      (by decide)).2.trans (by decide),
   (check_group_survival_bonus_spec _).2 (by decide)⟩

/-- Each loan-payment iteration keeps exactly the loans whose decremented
countdown has not hit zero. -/
lemma loanPaymentStep_kept (acc : LoanAcc) (l : TokenLoan) :
    (loanPaymentStep acc l).kept =
      if l.rounds_remaining - 1 = 0 then acc.kept
      else acc.kept ++ [{l with rounds_remaining := l.rounds_remaining - 1}] := by
  simp only [loanPaymentStep]
  split_ifs with h1 h2 <;> rfl

/-- Closed form of the loan-payment fold's kept list: the owed loans, each
decremented, with the matured ones (countdown now 0) removed. -/
lemma foldl_loanPaymentStep_kept (loans : List TokenLoan) (acc : LoanAcc) :
    (loans.foldl loanPaymentStep acc).kept =
      acc.kept ++
        (loans.map (fun l => {l with rounds_remaining := l.rounds_remaining - 1})).filter
          (fun l => decide (l.rounds_remaining ≠ 0)) := by
  induction loans generalizing acc with
  | nil => simp
  | cons l ls ih =>
    rw [List.foldl_cons, ih, List.map_cons, List.filter_cons]
    by_cases h : l.rounds_remaining - 1 = 0
    · rw [loanPaymentStep_kept, if_pos h]
      simp [h]
    · rw [loanPaymentStep_kept, if_neg h]
      simp [h]

/-- The loan-payment fold never drives the running bank negative: a debit
happens only under the affordability guard. -/
lemma foldl_loanPaymentStep_bank_nonneg (loans : List TokenLoan) :
    ∀ acc : LoanAcc, 0 ≤ acc.bank → 0 ≤ (loans.foldl loanPaymentStep acc).bank := by
  induction loans with
  | nil => intro acc h; simpa using h
  | cons l ls ih =>
    intro acc h
    rw [List.foldl_cons]
    apply ih
    simp only [loanPaymentStep]
    split_ifs with h1 h2 <;> simp <;> omega

/-- C4 (amended).  `process_loan_payments` removes every matured loan
(repaid or defaulted alike) from the borrower's owed list — the kept list
is exactly the decremented loans whose countdown is still nonzero — but it
never touches the `loans_issued` list, so the lender's tracked record of a
matured loan is not removed. -/
theorem process_loan_payments_spec (p : Participant) :
    p.process_loan_payments.1.loans_issued = p.loans_issued ∧
    p.process_loan_payments.1.loans_owed =
      (p.loans_owed.map (fun l => {l with rounds_remaining := l.rounds_remaining - 1})).filter
        (fun l => decide (l.rounds_remaining ≠ 0)) := by
  constructor
  · rfl
  · show (p.loans_owed.foldl loanPaymentStep ⟨p.token_bank, [], []⟩).kept = _
    rw [foldl_loanPaymentStep_kept]
    rfl

/-- Counterexample for C4 as stated: a loan issued by `offer_loan` is
tracked by both parties; after it matures (and is repaid) in
`process_all_loans`, it has been removed from the borrower's owed list but
still sits in the lender's issued list. -/
theorem loan_maturity_lender_list_cex :
    ((Participant.offer_loan {Participant.init "L" "m" with token_bank := 500}
        (Participant.init "B" "m") 500 0 1).1.loans_issued.length = 1 ∧
     (Participant.offer_loan {Participant.init "L" "m" with token_bank := 500}
        (Participant.init "B" "m") 500 0 1).2.1.loans_owed.length = 1) ∧
    (process_all_loans
        [(Participant.offer_loan {Participant.init "L" "m" with token_bank := 500}
            (Participant.init "B" "m") 500 0 1).1,
         (Participant.offer_loan {Participant.init "L" "m" with token_bank := 500}
            (Participant.init "B" "m") 500 0 1).2.1]).map
        (fun p => (p.loans_issued.length, p.loans_owed.length)) = [(1, 0), (0, 0)] := by
  refine ⟨by decide, ?_⟩
  have ho : Participant.offer_loan {Participant.init "L" "m" with token_bank := 500}
      (Participant.init "B" "m") 500 0 1 =
      ({Participant.init "L" "m" with token_bank := 0,
                                      loans_issued := [⟨"L", "B", 500, 0, 1, 1, 0⟩]},
       {Participant.init "B" "m" with token_bank := 1500,
                                      loans_owed := [⟨"L", "B", 500, 0, 1, 1, 0⟩]},
       some ⟨"L", "B", 500, 0, 1, 1, 0⟩) := by decide
  rw [ho]
  simp only [process_all_loans, List.map_cons, List.map_nil, loanStep]
  norm_num [Participant.process_loan_payments, List.foldl_cons, List.foldl_nil,
    loanPaymentStep_kept, Participant.init]

/-- C10.  Lender frame on repayment: settling the engine's loans when the
borrower repays a matured loan debits the borrower by exactly the amount
due, removes the loan from the borrower's owed list, and leaves the lender
participant entirely unchanged — no balance credit, no interest counter
update, and the loan still sits in the lender's issued list. -/
theorem repayment_lender_frame (lender borrower : Participant)
    (loan : TokenLoan)
    (hl : lender.loans_owed = [])
    (hb : borrower.eliminated = false)
    (ho : borrower.loans_owed = [loan])
    (hr : loan.rounds_remaining = 1)
    (hp : loan.calculate_payment ≤ borrower.token_bank) :
    process_all_loans [lender, borrower] =
      [lender,
       {borrower with token_bank := borrower.token_bank - loan.calculate_payment,
                      loans_owed := []}] := by
  simp only [process_all_loans, List.map_cons, List.map_nil]
  congr 1
  · unfold loanStep
    by_cases he : lender.eliminated
    · rw [if_pos he]
    · rw [if_neg he]
      show ({lender with
              token_bank := (lender.loans_owed.foldl loanPaymentStep
                ⟨lender.token_bank, [], []⟩).bank,
              loans_owed := (lender.loans_owed.foldl loanPaymentStep
                ⟨lender.token_bank, [], []⟩).kept} : Participant) = lender
      rw [hl]
      obtain ⟨n, m, lv, tb, lo, li, el, er, te, ts, ti, dg, dr⟩ := lender
      simp_all
  · congr 1
    unfold loanStep
    rw [if_neg (by simp [hb])]
    show ({borrower with
            token_bank := (borrower.loans_owed.foldl loanPaymentStep
              ⟨borrower.token_bank, [], []⟩).bank,
            loans_owed := (borrower.loans_owed.foldl loanPaymentStep
              ⟨borrower.token_bank, [], []⟩).kept} : Participant) = _
    rw [ho]
    have hg : ({loan with rounds_remaining := loan.rounds_remaining - 1} :
        TokenLoan).rounds_remaining = 0 := by simp [hr]
    have hcalc : ({loan with rounds_remaining := loan.rounds_remaining - 1} :
        TokenLoan).calculate_payment = loan.calculate_payment := rfl
    simp only [List.foldl_cons, List.foldl_nil, loanPaymentStep]
    rw [if_pos hg]
    simp only [hcalc]
    rw [if_pos (by simpa using hp)]

/-- Witness for C10 at a concrete lender, borrower and matured loan
(principal 500, rate 0, one round left, affordable): the borrower ends at
500 tokens with no owed loans and the lender record is untouched. -/
theorem repayment_lender_frame_witness :
    process_all_loans
        [{Participant.init "L" "m" with loans_issued := [⟨"L", "B", 500, 0, 2, 1, 0⟩]},
         {Participant.init "B" "m" with loans_owed := [⟨"L", "B", 500, 0, 2, 1, 0⟩]}] =
      [{Participant.init "L" "m" with loans_issued := [⟨"L", "B", 500, 0, 2, 1, 0⟩]},
       {Participant.init "B" "m" with token_bank := 500, loans_owed := []}] := by
  have hpay : (⟨"L", "B", 500, 0, 2, 1, 0⟩ : TokenLoan).calculate_payment = 500 := by
    unfold TokenLoan.calculate_payment
    rw [show (((500 : ℤ) : ℚ)) * (1 + (0 : ℚ)) = (500 : ℚ) by norm_num]
    decide
  have h := repayment_lender_frame
    {Participant.init "L" "m" with loans_issued := [⟨"L", "B", 500, 0, 2, 1, 0⟩]}
    {Participant.init "B" "m" with loans_owed := [⟨"L", "B", 500, 0, 2, 1, 0⟩]}
    ⟨"L", "B", 500, 0, 2, 1, 0⟩ rfl rfl rfl rfl (by rw [hpay]; decide)
  rw [h, hpay]
  decide

/-- C7 (amended, v3 part).  The v3 settle block: the best participant's
level is incremented by exactly 1 clamped at MAX_LEVEL 3 and they earn the
fixed 500-token best bonus; the worst participant's level is decremented by
exactly 1 clamped at −6; every other participant is untouched. -/
theorem settleStep_clamped_spec (ps : List Participant) (best worst : String)
    (h : best ≠ worst) :
    settleStep ps best worst = ps.map (fun p =>
      if p.name = best then
        (Participant.earn_tokens {p with level := min (p.level + 1) 3}
          500 "Best response").1
      else if p.name = worst then {p with level := max (p.level - 1) (-6)}
      else p) := by
  unfold settleStep updateParticipant
  rw [List.map_map]
  apply List.map_congr_left
  intro p _
  dsimp only [Function.comp]
  by_cases hb : p.name = best
  · rw [if_pos hb, if_pos hb]
    rw [if_neg (show ¬((Participant.earn_tokens {p with level := min (p.level + 1) 3}
      500 "Best response").1.name = worst) from by
        show ¬(p.name = worst)
        rw [hb]
        exact h)]
  · rw [if_neg hb, if_neg hb]

/-- Witness for C7's amended theorem: two fresh participants, "Grok" judged
best and "Claude" worst — Grok ends at level 1 with 1500 tokens, Claude at
level −1. -/
theorem settleStep_clamped_spec_witness :
    settleStep [Participant.init "Grok" "g", Participant.init "Claude" "c"]
        "Grok" "Claude" =
      [{Participant.init "Grok" "g" with level := 1, token_bank := 1500, total_earned := 1500},
       {Participant.init "Claude" "c" with level := -1}] :=
  (settleStep_clamped_spec
    [Participant.init "Grok" "g", Participant.init "Claude" "c"]
    "Grok" "Claude" (by decide)).trans (by decide)

/-- Counterexample for C7 as stated: in the v5 engine's settle step the
best participant's level is not clamped at MAX_LEVEL 3 — an AI already at
level 3 that is ranked best reaches level 4. -/
theorem v5_settle_unclamped_cex :
    (apply_round_results [{AIv5.init "A" "m" with level := 3}, AIv5.init "B" "m"]
        1 ["A", "B"]).map (fun a => a.level) = [4, -1] ∧ ¬ ((4 : ℤ) ≤ 3) := by
  decide

/-- C8.  Elimination is monotonic and idempotent: a participant at or below
the threshold −6 is eliminated with the current round recorded; re-running
the check is a no-op on the whole roster and on any already-eliminated
participant; and the settle step never changes anyone's eliminated flag or
elimination round. -/
theorem elimination_monotone_idempotent (ps : List Participant) (r r' : ℤ)
    (b w : String) (i : ℕ) (p : Participant) :
    (check_eliminations (check_eliminations ps r) r' = check_eliminations ps r) ∧
    (ps.get? i = some p → p.eliminated = false → p.level ≤ -6 →
      (check_eliminations ps r).get? i =
        some {p with eliminated := true, elimination_round := some r}) ∧
    (ps.get? i = some p → p.eliminated = true →
      (check_eliminations ps r).get? i = some p) ∧
    (ps.get? i = some p →
      ∃ q, (settleStep ps b w).get? i = some q ∧
        q.eliminated = p.eliminated ∧
        q.elimination_round = p.elimination_round ∧ q.name = p.name) := by
  refine ⟨?_, ?_, ?_, ?_⟩
  · unfold check_eliminations
    rw [List.map_map]
    apply List.map_congr_left
    intro q _
    dsimp only [Function.comp]
    unfold elimStep
    by_cases h1 : q.eliminated = false ∧ q.level ≤ -6
    · rw [if_pos h1, if_neg (by simp)]
    · rw [if_neg h1, if_neg h1]
  · intro h1 h2 h3
    unfold check_eliminations
    rw [List.get?_map, h1]
    simp [elimStep, h2, h3]
  · intro h1 h2
    unfold check_eliminations
    rw [List.get?_map, h1]
    simp [elimStep, h2]
  · intro h1
    unfold settleStep updateParticipant
    rw [List.map_map, List.get?_map, h1]
    refine ⟨_, rfl, ?_, ?_, ?_⟩ <;>
      · dsimp only [Function.comp]
        split_ifs <;> rfl

/-- Witness for C8 at concrete inputs: an eliminated participant (round 2
recorded) is untouched by a re-check, and a settle step naming it best
leaves its eliminated flag and round unchanged; an alive participant at
level −6 gets eliminated with the current round 5 recorded. -/
theorem elimination_monotone_idempotent_witness :
    ((check_eliminations
        [{Participant.init "A" "m" with eliminated := true, elimination_round := some 2}] 5).get? 0 =
      some {Participant.init "A" "m" with eliminated := true, elimination_round := some 2}) ∧
    (∃ q, (settleStep
        [{Participant.init "A" "m" with eliminated := true, elimination_round := some 2}] "A" "B").get? 0 =
      some q ∧
      q.eliminated = true ∧
      q.elimination_round = some 2 ∧
      q.name = "A") ∧
    ((check_eliminations [{Participant.init "C" "m" with level := -6}] 5).get? 0 =
      some {Participant.init "C" "m" with level := -6, eliminated := true, elimination_round := some 5}) :=
  ⟨(elimination_monotone_idempotent
      [{Participant.init "A" "m" with eliminated := true, elimination_round := some 2}]
      5 5 "A" "B" 0
      {Participant.init "A" "m" with eliminated := true, elimination_round := some 2}).2.2.1
      rfl rfl,
   (elimination_monotone_idempotent
      [{Participant.init "A" "m" with eliminated := true, elimination_round := some 2}]
      5 5 "A" "B" 0
      {Participant.init "A" "m" with eliminated := true, elimination_round := some 2}).2.2.2
      rfl,
   ((elimination_monotone_idempotent
      [{Participant.init "C" "m" with level := -6}] 5 5 "A" "B" 0
      {Participant.init "C" "m" with level := -6}).2.1 rfl rfl
      (by decide)).trans (by decide)⟩

/-- Interest only ever adds a nonnegative amount to a nonnegative bank. -/
lemma bank_nonneg_interestStep (p : Participant) (h : 0 ≤ p.token_bank) :
    0 ≤ (interestStep p).token_bank := by
  unfold interestStep Participant.apply_interest
  by_cases he : p.eliminated
  · rw [if_pos he]; exact h
  · rw [if_neg he]
    by_cases hb : 0 < p.token_bank
    · rw [if_pos hb]
      have hq : (0 : ℚ) ≤ (p.token_bank : ℚ) * (5 / 100) :=
        mul_nonneg (by exact_mod_cast h) (by norm_num)
      have ht := truncInt_nonneg hq
      show 0 ≤ p.token_bank + truncInt ((p.token_bank : ℚ) * (5 / 100))
      omega
    · rw [if_neg hb]; exact h

/-- Loan processing keeps a nonnegative bank nonnegative. -/
lemma bank_nonneg_loanStep (p : Participant) (h : 0 ≤ p.token_bank) :
    0 ≤ (loanStep p).token_bank := by
  unfold loanStep
  by_cases he : p.eliminated
  · rw [if_pos he]; exact h
  · rw [if_neg he]
    show 0 ≤ (p.loans_owed.foldl loanPaymentStep ⟨p.token_bank, [], []⟩).bank
    exact foldl_loanPaymentStep_bank_nonneg _ _ h

/-- The survival stipend keeps a nonnegative bank nonnegative. -/
lemma bank_nonneg_stipendStep (p : Participant) (h : 0 ≤ p.token_bank) :
    0 ≤ (stipendStep p).token_bank := by
  unfold stipendStep
  by_cases he : p.eliminated
  · rw [if_pos he]; exact h
  · rw [if_neg he]
    show 0 ≤ p.token_bank + 100
    omega

/-- The elimination check never touches the bank. -/
lemma bank_eq_elimStep (r : ℤ) (p : Participant) :
    (elimStep r p).token_bank = p.token_bank := by
  unfold elimStep
  split_ifs <;> rfl

/-- A per-participant map preserves nonnegative banks whenever its function
does. -/
lemma mem_map_bank_nonneg {f : Participant → Participant}
    (hf : ∀ p, 0 ≤ p.token_bank → 0 ≤ (f p).token_bank)
    {ps : List Participant} (h : ∀ p ∈ ps, 0 ≤ p.token_bank) :
    ∀ q ∈ ps.map f, 0 ≤ q.token_bank := by
  intro q hq
  rcases List.mem_map.mp hq with ⟨p, hp, rfl⟩
  exact hf p (h p hp)

/-- The settle block preserves nonnegative banks (the best-bonus is a
credit, the demotion only changes the level). -/
lemma bank_nonneg_settleStep (ps : List Participant) (b w : String)
    (h : ∀ p ∈ ps, 0 ≤ p.token_bank) :
    ∀ p ∈ settleStep ps b w, 0 ≤ p.token_bank := by
  intro p hp
  unfold settleStep updateParticipant at hp
  rw [List.map_map] at hp
  rcases List.mem_map.mp hp with ⟨q, hq, rfl⟩
  have h0 := h q hq
  dsimp only [Function.comp]
  split_ifs <;> simp [Participant.earn_tokens] <;> omega

/-- The post-settle tail of a v3 round (stipend, group bonus, elimination
check) preserves nonnegative banks. -/
lemma settled_pipeline_nonneg (ps3 : List Participant) (r : ℤ)
    (h3 : ∀ p ∈ ps3, 0 ≤ p.token_bank) :
    ∀ p ∈ check_eliminations
      ((check_group_survival_bonus (ps3.map stipendStep)).1) r,
      0 ≤ p.token_bank := by
  have h4 := mem_map_bank_nonneg bank_nonneg_stipendStep h3
  have h5 : ∀ p ∈ (check_group_survival_bonus (ps3.map stipendStep)).1,
      0 ≤ p.token_bank := by
    unfold check_group_survival_bonus
    split
    · dsimp only
      exact mem_map_bank_nonneg
        (fun p hp => by show 0 ≤ p.token_bank + 300; omega) h4
    · dsimp only
      exact h4
  intro p hp
  unfold check_eliminations at hp
  rcases List.mem_map.mp hp with ⟨q, hq, rfl⟩
  rw [bank_eq_elimStep]
  exact h5 q hq

/-- The whole per-round pipeline of `EliminationEngineV3.run_round`
preserves nonnegative banks. -/
lemma round_pipeline_nonneg (ps : List Participant)
    (judged : Option (String × String)) (r : ℤ)
    (h : ∀ p ∈ ps, 0 ≤ p.token_bank) :
    ∀ p ∈ check_eliminations
      ((check_group_survival_bonus
        ((match judged with
          | some bw => settleStep (process_all_loans (apply_interest_to_all ps)) bw.1 bw.2
          | none => process_all_loans (apply_interest_to_all ps)).map
          stipendStep)).1) r,
      0 ≤ p.token_bank := by
  have h1 : ∀ p ∈ apply_interest_to_all ps, 0 ≤ p.token_bank :=
    mem_map_bank_nonneg bank_nonneg_interestStep h
  have h2 : ∀ p ∈ process_all_loans (apply_interest_to_all ps), 0 ≤ p.token_bank :=
    mem_map_bank_nonneg bank_nonneg_loanStep h1
  cases judged with
  | none => exact settled_pipeline_nonneg _ r h2
  | some bw => exact settled_pipeline_nonneg _ r (bank_nonneg_settleStep _ bw.1 bw.2 h2)

/-- C1 (amended, v3 part).  In the v3 engine every debit inside a round is
guarded by an affordability check, so a round maps a roster with
nonnegative balances to a roster with nonnegative balances. -/
theorem v3_round_preserves_nonneg_balance (e : EngineV3)
    (judged : Option (String × String))
    (h : ∀ p ∈ e.participants, 0 ≤ p.token_bank) :
    ∀ p ∈ (e.run_round judged).participants, 0 ≤ p.token_bank := by
  intro p hp
  exact round_pipeline_nonneg e.participants judged (e.current_round + 1) h p hp

/-- Witness for C1's amended theorem: a concrete two-participant v3 round
with a judged best and worst keeps every balance nonnegative. -/
theorem v3_round_preserves_nonneg_balance_witness :
    (∀ p ∈ ([Participant.init "Grok" "g", Participant.init "Claude" "c"] :
        List Participant), 0 ≤ p.token_bank) ∧
    (∀ p ∈ ((EngineV3.mk [Participant.init "Grok" "g", Participant.init "Claude" "c"]
        0).run_round (some ("Grok", "Claude"))).participants, 0 ≤ p.token_bank) :=
  ⟨by decide,
   v3_round_preserves_nonneg_balance
     (EngineV3.mk [Participant.init "Grok" "g", Participant.init "Claude" "c"] 0)
     (some ("Grok", "Claude")) (by decide)⟩

/-- Counterexample for C1 as stated: in the v5 engine the challenge-round
response cost is debited with no affordability check, so after one round a
participant's balance can be negative (here an AI starting at 10000 is
charged 13001 tokens of API cost, ends the round at −1 and is
eliminated). -/
theorem v5_round_negative_balance_cex :
    ¬ (∀ a ∈ run_challenge_round [AIv5.init "Grok" "g"] 1 (fun _ => 13001) ["Grok"],
        0 ≤ a.token_bank) := by
  decide

end CafeElim
